import Mathlib

/-!
Verification of the midasio MIDAS-file codec against its specification.

The repository ships the decoders in two module generations:
  * `data_bank.rs` / `event.rs` / `file.rs` (module API: `Bank16View`,
    `padded_bank`, ...), embedded below in namespace `DataBank`;
  * `lib.rs` / `parse.rs` (the crate-root API compiled by `lib.rs`:
    `mod parse`), embedded below in namespace `Parse`.

Byte buffers are modelled as `List Nat` (each entry a byte value `< 256`;
claims that depend on the byte range carry that bound as a hypothesis).
A winnow parser over `&[u8]` returning `T` is modelled as a function
`List Nat → Option (T × List Nat)` returning the decoded value and the
remaining input, `none` on failure.
-/

/-- Byte order of a MIDAS file, as in `winnow::binary::Endianness`. -/
inductive Endianness where
  | little
  | big
deriving DecidableEq

/-- A winnow parser over a byte slice: on success, the decoded value and
the remaining (unconsumed) input. -/
def ByteP (α : Type) : Type := List Nat → Option (α × List Nat)

/-- Model of `winnow::token::take(n)`: consume exactly `n` bytes. -/
def takeP (n : Nat) : ByteP (List Nat) := fun input =>
  if n ≤ input.length then some (input.take n, input.drop n) else none

/-- Value of two bytes read in the given byte order. -/
def u16v (e : Endianness) (b0 b1 : Nat) : Nat :=
  match e with
  | .little => b0 + 256 * b1
  | .big => 256 * b0 + b1

/-- Model of `winnow::binary::u16(endianness)`: consume 2 bytes. -/
def u16p (e : Endianness) : ByteP Nat := fun input =>
  match input with
  | b0 :: b1 :: rest => some (u16v e b0 b1, rest)
  | _ => none

/-- Value of four bytes read in the given byte order. -/
def u32v (e : Endianness) (b0 b1 b2 b3 : Nat) : Nat :=
  match e with
  | .little => b0 + 256 * b1 + 65536 * b2 + 16777216 * b3
  | .big => 16777216 * b0 + 65536 * b1 + 256 * b2 + b3

/-- Model of `winnow::binary::u32(endianness)`: consume 4 bytes. -/
def u32p (e : Endianness) : ByteP Nat := fun input =>
  match input with
  | b0 :: b1 :: b2 :: b3 :: rest => some (u32v e b0 b1 b2 b3, rest)
  | _ => none

/-- Model of `winnow::binary::length_take(count)`: parse a length then take that
many bytes. -/
def length_take (count : ByteP Nat) : ByteP (List Nat) := fun input =>
  match count input with
  | none => none
  | some (n, rest) => takeP n rest

/-- Model of `winnow::combinator::terminated(p, q)`: run `p`, then `q`, keep `p`'s
output. -/
def terminatedP {α β : Type} (p : ByteP α) (q : ByteP β) : ByteP α := fun input =>
  match p input with
  | none => none
  | some (a, rest) =>
    match q rest with
    | none => none
    | some (_, rest2) => some (a, rest2)

/-- Model of `Parser::parse`: run the parser and require that the whole input is
consumed. -/
def parseAll {α : Type} (p : ByteP α) (input : List Nat) : Option α :=
  match p input with
  | some (a, []) => some a
  | _ => none

/-- Model of `usize::next_multiple_of` for the bank data alignment. -/
def next_multiple_of (n m : Nat) : Nat := ((n + m - 1) / m) * m

/-- Model of `winnow::stream::AsChar::is_alphanum` on a byte: ASCII `0-9`, `A-Z`
or `a-z`. -/
def is_alphanum (b : Nat) : Bool :=
  (48 ≤ b && b ≤ 57) || (65 ≤ b && b ≤ 90) || (97 ≤ b && b ≤ 122)

/-- Little-endian encoding of a 16-bit value (`to_le_bytes` /
`to_be_bytes` per byte order); mirrors the byte constructors used by the
`lib.rs` tests. -/
def enc16 (e : Endianness) (n : Nat) : List Nat :=
  match e with
  | .little => [n % 256, (n / 256) % 256]
  | .big => [(n / 256) % 256, n % 256]

/-- Encoding of a 32-bit value in the given byte order. -/
def enc32 (e : Endianness) (n : Nat) : List Nat :=
  match e with
  | .little => [n % 256, (n / 256) % 256, (n / 65536) % 256, (n / 16777216) % 256]
  | .big => [(n / 16777216) % 256, (n / 65536) % 256, (n / 256) % 256, n % 256]

namespace DataBank

/-- Model of `data_bank.rs` `DataType`: possible data types stored inside a data
bank. -/
inductive DataType where
  | U8 | I8 | U16 | I16 | U32 | I32 | Bool | F32 | F64
  | Bit32 | Str | Struct | I64 | U64
deriving DecidableEq

/-- Model of `data_bank.rs` `DataType::size`: byte size of a data type, `none`
for types without a fixed known size. -/
def DataType.size : DataType → Option Nat
  | .U8 => some 1
  | .I8 => some 1
  | .U16 => some 2
  | .I16 => some 2
  | .U32 => some 4
  | .I32 => some 4
  | .Bool => some 4
  | .F32 => some 4
  | .F64 => some 8
  | .Bit32 => some 4
  | .Str => none
  | .Struct => none
  | .I64 => some 8
  | .U64 => some 8

/-- Model of `data_bank.rs` `TryFrom<unsigned> for DataType`: partial conversion
from the wire type code (13, 15 and 16 are not supported). -/
def DataType.try_from (num : Nat) : Option DataType :=
  match num with
  | 1 => some .U8
  | 2 => some .I8
  | 3 => some .U8
  | 4 => some .U16
  | 5 => some .I16
  | 6 => some .U32
  | 7 => some .I32
  | 8 => some .Bool
  | 9 => some .F32
  | 10 => some .F64
  | 11 => some .Bit32
  | 12 => some .Str
  | 14 => some .Struct
  | 17 => some .I64
  | 18 => some .U64
  | _ => none

/-- Model of `data_bank.rs` `Bank16View`: name, data type and raw data slice. -/
structure Bank16View where
  name : List Nat
  data_type : DataType
  data_slice : List Nat
deriving DecidableEq

/-- Model of `data_bank.rs` `Bank32View`. -/
structure Bank32View where
  name : List Nat
  data_type : DataType
  data_slice : List Nat
deriving DecidableEq

/-- Model of `data_bank.rs` `Bank32AView`. -/
structure Bank32AView where
  name : List Nat
  data_type : DataType
  data_slice : List Nat
deriving DecidableEq

/-- Model of `data_bank.rs` `bank_16_view`: 4 alphanumeric name bytes, 16-bit type
code, 16-bit length-prefixed data slice whose length is a multiple of the
element size. -/
def bank_16_view (e : Endianness) : ByteP Bank16View := fun input =>
  match takeP 4 input with
  | none => none
  | some (nm, i1) =>
    if nm.all is_alphanum then
      match u16p e i1 with
      | none => none
      | some (dtn, i2) =>
        match DataType.try_from dtn with
        | none => none
        | some dt =>
          match length_take (u16p e) i2 with
          | none => none
          | some (data, i3) =>
            if data.length % (DataType.size dt).getD 1 = 0 then
              some ({ name := nm, data_type := dt, data_slice := data }, i3)
            else none
    else none

/-- Model of `data_bank.rs` `bank_32_view`: as `bank_16_view` with 32-bit type and
size fields. -/
def bank_32_view (e : Endianness) : ByteP Bank32View := fun input =>
  match takeP 4 input with
  | none => none
  | some (nm, i1) =>
    if nm.all is_alphanum then
      match u32p e i1 with
      | none => none
      | some (dtn, i2) =>
        match DataType.try_from dtn with
        | none => none
        | some dt =>
          match length_take (u32p e) i2 with
          | none => none
          | some (data, i3) =>
            if data.length % (DataType.size dt).getD 1 = 0 then
              some ({ name := nm, data_type := dt, data_slice := data }, i3)
            else none
    else none

/-- Model of `data_bank.rs` `bank_32a_view`: as `bank_32_view` but the 32-bit size
field is followed by a 4-byte reserved field that is consumed and
discarded. -/
def bank_32a_view (e : Endianness) : ByteP Bank32AView := fun input =>
  match takeP 4 input with
  | none => none
  | some (nm, i1) =>
    if nm.all is_alphanum then
      match u32p e i1 with
      | none => none
      | some (dtn, i2) =>
        match DataType.try_from dtn with
        | none => none
        | some dt =>
          match length_take (terminatedP (u32p e) (takeP 4)) i2 with
          | none => none
          | some (data, i3) =>
            if data.length % (DataType.size dt).getD 1 = 0 then
              some ({ name := nm, data_type := dt, data_slice := data }, i3)
            else none
    else none

/-- Model of `data_bank.rs` `BankView`: one of the three bank layouts. -/
inductive BankView where
  | B16 (bank : Bank16View)
  | B32 (bank : Bank32View)
  | B32A (bank : Bank32AView)
deriving DecidableEq

/-- Model of `data_bank.rs` `BankView::data_slice`. -/
def BankView.data_slice : BankView → List Nat
  | .B16 bank => bank.data_slice
  | .B32 bank => bank.data_slice
  | .B32A bank => bank.data_slice

/-- Model of `data_bank.rs` `BankView::required_padding`: number of padding bytes
needed to make the data area a multiple of 8 bytes. -/
def BankView.required_padding (bv : BankView) : Nat :=
  let remainder := bv.data_slice.length % 8
  if remainder = 0 then 0 else 8 - remainder

/-- Model of `event.rs` `padded_bank`: run a bank parser, then consume the bank's
required padding. -/
def padded_bank {α : Type} (f : ByteP α) (inj : α → BankView) : ByteP BankView :=
  fun input =>
    match f input with
    | none => none
    | some (b, i1) =>
      let bv := inj b
      match takeP bv.required_padding i1 with
      | none => none
      | some (_, i2) => some (bv, i2)

end DataBank

/-- Model of `repeat_till(0.., p, eof)` with explicit fuel: repeatedly run `p`
until the input is exhausted; every byte of the input must be consumed. -/
def repeat_till_eof_fuel {α : Type} (p : ByteP α) : Nat → List Nat → Option (List α)
  | _, [] => some []
  | 0, _ :: _ => none
  | fuel + 1, b :: bs =>
    match p (b :: bs) with
    | none => none
    | some (a, rest) =>
      match repeat_till_eof_fuel p fuel rest with
      | none => none
      | some as_ => some (a :: as_)

/-- Model of `winnow::combinator::repeat_till(0.., p, eof)`: the fuel
`input.length` suffices because every bank parser consumes at least one
byte per success (winnow aborts on zero-length matches). -/
def repeat_till_eof {α : Type} (p : ByteP α) (input : List Nat) : Option (List α) :=
  repeat_till_eof_fuel p input.length input

/-- Model of `length_and_then(empty.value(n), inner)`: take `n` bytes and run
`inner` on exactly that slice. -/
def length_and_then {α : Type} (n : Nat) (inner : List Nat → Option α) : ByteP α :=
  fun input =>
    if n ≤ input.length then
      match inner (input.take n) with
      | none => none
      | some a => some (a, input.drop n)
    else none

/-- Model of `winnow::combinator::repeat(0.., p)` with explicit fuel: accumulate
values while `p` succeeds; stop (without failing) on the first failure. -/
def repeat0_fuel {α : Type} (p : ByteP α) : Nat → List Nat → List α × List Nat
  | 0, input => ([], input)
  | fuel + 1, input =>
    match p input with
    | none => ([], input)
    | some (a, rest) =>
      let (as_, r) := repeat0_fuel p fuel rest
      (a :: as_, r)

/-- Model of `winnow::combinator::repeat(0.., p)`: the fuel `input.length`
suffices because every event parser consumes at least one byte per
success. -/
def repeat0 {α : Type} (p : ByteP α) (input : List Nat) : List α × List Nat :=
  repeat0_fuel p input.length input

namespace Parse

/-- Model of `lib.rs` `DataType`: possible data types stored inside a data bank
(crate-root generation). -/
inductive DataType where
  | U8 | I8 | U16 | I16 | U32 | I32 | Bool | F32 | F64
  | Str | Array | Struct | I64 | U64
deriving DecidableEq

/-- Model of `parse.rs` `DataType::size`: byte size, `none` for `Str`, `Array`
and `Struct`. -/
def DataType.size : DataType → Option Nat
  | .U8 => some 1
  | .I8 => some 1
  | .U16 => some 2
  | .I16 => some 2
  | .U32 => some 4
  | .I32 => some 4
  | .Bool => some 4
  | .F32 => some 4
  | .F64 => some 8
  | .Str => none
  | .Array => none
  | .Struct => none
  | .I64 => some 8
  | .U64 => some 8

/-- Model of `parse.rs` `TryFrom<unsigned> for DataType`: the crate-root table
maps 11 to `U32`, 13 to `Array` and 15/16 to `Str`. -/
def DataType.try_from (num : Nat) : Option DataType :=
  match num with
  | 1 => some .U8
  | 2 => some .I8
  | 3 => some .U8
  | 4 => some .U16
  | 5 => some .I16
  | 6 => some .U32
  | 7 => some .I32
  | 8 => some .Bool
  | 9 => some .F32
  | 10 => some .F64
  | 11 => some .U32
  | 12 => some .Str
  | 13 => some .Array
  | 14 => some .Struct
  | 15 => some .Str
  | 16 => some .Str
  | 17 => some .I64
  | 18 => some .U64
  | _ => none

/-- Model of `lib.rs` `BankView`: 4 name bytes, data type and data slice. -/
structure BankView where
  name : List Nat
  data_type : DataType
  data : List Nat
deriving DecidableEq

/-- Model of `parse.rs` `bank_16_view`: 4 name bytes (taken without validation),
16-bit type code, 16-bit length-prefixed data whose length is a multiple
of the element size, then the 0-7 alignment padding bytes. -/
def bank_16_view (e : Endianness) : ByteP BankView := fun input =>
  match takeP 4 input with
  | none => none
  | some (nm, i1) =>
    match u16p e i1 with
    | none => none
    | some (dtn, i2) =>
      match DataType.try_from dtn with
      | none => none
      | some dt =>
        match length_take (u16p e) i2 with
        | none => none
        | some (data, i3) =>
          if data.length % (DataType.size dt).getD 1 = 0 then
            match takeP (next_multiple_of data.length 8 - data.length) i3 with
            | none => none
            | some (_, i4) => some ({ name := nm, data_type := dt, data := data }, i4)
          else none

/-- Model of `parse.rs` `bank_32_view`: as `bank_16_view` with 32-bit type and
size fields. -/
def bank_32_view (e : Endianness) : ByteP BankView := fun input =>
  match takeP 4 input with
  | none => none
  | some (nm, i1) =>
    match u32p e i1 with
    | none => none
    | some (dtn, i2) =>
      match DataType.try_from dtn with
      | none => none
      | some dt =>
        match length_take (u32p e) i2 with
        | none => none
        | some (data, i3) =>
          if data.length % (DataType.size dt).getD 1 = 0 then
            match takeP (next_multiple_of data.length 8 - data.length) i3 with
            | none => none
            | some (_, i4) => some ({ name := nm, data_type := dt, data := data }, i4)
          else none

/-- Model of `parse.rs` `bank_32a_view`: as `bank_32_view` but the 32-bit size
field is followed by a 4-byte reserved field that is consumed and
discarded. -/
def bank_32a_view (e : Endianness) : ByteP BankView := fun input =>
  match takeP 4 input with
  | none => none
  | some (nm, i1) =>
    match u32p e i1 with
    | none => none
    | some (dtn, i2) =>
      match DataType.try_from dtn with
      | none => none
      | some dt =>
        match length_take (terminatedP (u32p e) (takeP 4)) i2 with
        | none => none
        | some (data, i3) =>
          if data.length % (DataType.size dt).getD 1 = 0 then
            match takeP (next_multiple_of data.length 8 - data.length) i3 with
            | none => none
            | some (_, i4) => some ({ name := nm, data_type := dt, data := data }, i4)
          else none

/-- Model of `lib.rs` `EventView`: scalar header fields and the decoded banks. -/
structure EventView where
  id : Nat
  trigger_mask : Nat
  serial_number : Nat
  timestamp : Nat
  bank_views : List BankView
deriving DecidableEq

/-- The flags dispatch of `parse.rs` `event_view`: read the 32-bit flags
field, select the bank layout (1, 17 or 49) and decode exactly
`banks_size` bytes of banks with it. -/
def event_banks (e : Endianness) (banks_size : Nat) : ByteP (List BankView) :=
  fun input =>
    match u32p e input with
    | none => none
    | some (flags, rest) =>
      if flags = 1 then length_and_then banks_size (repeat_till_eof (bank_16_view e)) rest
      else if flags = 17 then length_and_then banks_size (repeat_till_eof (bank_32_view e)) rest
      else if flags = 49 then length_and_then banks_size (repeat_till_eof (bank_32a_view e)) rest
      else none

/-- Model of `parse.rs` `event_view`: 12-byte scalar header, `event_size`
(verified at least 8), `banks_size` (verified equal to
`event_size - 8`), then the flags dispatch over the banks region. -/
def event_view (e : Endianness) : ByteP EventView := fun input =>
  match u16p e input with
  | none => none
  | some (id, i1) =>
    match u16p e i1 with
    | none => none
    | some (tm, i2) =>
      match u32p e i2 with
      | none => none
      | some (sn, i3) =>
        match u32p e i3 with
        | none => none
        | some (ts, i4) =>
          match u32p e i4 with
          | none => none
          | some (event_size, i5) =>
            if 8 ≤ event_size then
              match u32p e i5 with
              | none => none
              | some (banks_size, i6) =>
                if banks_size = event_size - 8 then
                  match event_banks e banks_size i6 with
                  | none => none
                  | some (bvs, r) =>
                    some ({ id := id, trigger_mask := tm, serial_number := sn,
                            timestamp := ts, bank_views := bvs }, r)
                else none
            else none

/-- Model of `lib.rs` `FileView`: run number, timestamps, the two ODB dumps and
the decoded events. -/
structure FileView where
  run_number : Nat
  initial_timestamp : Nat
  initial_odb : List Nat
  event_views : List EventView
  final_timestamp : Nat
  final_odb : List Nat
deriving DecidableEq

/-- Model of `parse.rs` `endianness`: dispatch on the first two bytes read as a
little-endian 16-bit value; `0x8000` selects little endian, its byte
swap `0x0080` selects big endian, anything else fails. -/
def endianness : ByteP Endianness := fun input =>
  match u16p Endianness.little input with
  | none => none
  | some (v, rest) =>
    if v = 32768 then some (Endianness.little, rest)
    else if v = 128 then some (Endianness.big, rest)
    else none

/-- Model of `parse.rs` `file_view`: detect the byte order, check the magic
marker, read the opening envelope and initial ODB dump, decode events
until one fails to parse, then check the closing envelope (end-of-run
marker, magic, matching run number) and read the final ODB dump. -/
def file_view : ByteP FileView := fun input =>
  match endianness input with
  | none => none
  | some (e, i0) =>
    match u16p e i0 with
    | none => none
    | some (magic, i1) =>
      if magic = 18765 then
        match u32p e i1 with
        | none => none
        | some (run_number, i2) =>
          match u32p e i2 with
          | none => none
          | some (initial_timestamp, i3) =>
            match length_take (u32p e) i3 with
            | none => none
            | some (initial_odb, i4) =>
              match repeat0 (event_view e) i4 with
              | (event_views, i5) =>
                match u16p e i5 with
                | none => none
                | some (eor, i6) =>
                  if eor = 32769 then
                    match u16p e i6 with
                    | none => none
                    | some (magic2, i7) =>
                      if magic2 = 18765 then
                        match u32p e i7 with
                        | none => none
                        | some (rn2, i8) =>
                          if rn2 = run_number then
                            match u32p e i8 with
                            | none => none
                            | some (final_timestamp, i9) =>
                              match length_take (u32p e) i9 with
                              | none => none
                              | some (final_odb, i10) =>
                                some ({ run_number := run_number,
                                        initial_timestamp := initial_timestamp,
                                        initial_odb := initial_odb,
                                        event_views := event_views,
                                        final_timestamp := final_timestamp,
                                        final_odb := final_odb }, i10)
                          else none
                      else none
                  else none
      else none

/-- Model of `lib.rs` `FileView::try_from_bytes`: run `file_view` over the whole
buffer, requiring full consumption. -/
def FileView.try_from_bytes (bytes : List Nat) : Option FileView :=
  parseAll file_view bytes

/-- Model of `lib.rs` `run_number_unchecked`: detect the byte order, skip the
2-byte magic marker without checking it, read the 32-bit run number, and
ignore the rest of the buffer. -/
def run_number_unchecked (bytes : List Nat) : Option Nat :=
  parseAll
    (fun input =>
      match endianness input with
      | none => none
      | some (e, i0) =>
        match takeP 2 i0 with
        | none => none
        | some (_, i1) =>
          match u32p e i1 with
          | none => none
          | some (rn, _) => some (rn, ([] : List Nat)))
    bytes

/-- Model of `lib.rs` `initial_timestamp_unchecked`: detect the byte order, skip
the 6 bytes of magic marker and run number without checking them, read
the 32-bit initial timestamp, and ignore the rest of the buffer. -/
def initial_timestamp_unchecked (bytes : List Nat) : Option Nat :=
  parseAll
    (fun input =>
      match endianness input with
      | none => none
      | some (e, i0) =>
        match takeP 6 i0 with
        | none => none
        | some (_, i1) =>
          match u32p e i1 with
          | none => none
          | some (ts, _) => some (ts, ([] : List Nat)))
    bytes

/-- Byte image of a MIDAS file, mirroring the `file_le` / `file_be`
constructors of the `lib.rs` tests, generalized with an independent
closing run number (the mismatch tests flip the closing bytes). -/
def file_bytes (e : Endianness) (run_number initial_timestamp : Nat)
    (initial_odb events : List Nat)
    (final_run_number final_timestamp : Nat) (final_odb : List Nat) : List Nat :=
  enc16 e 32768 ++ enc16 e 18765 ++ enc32 e run_number ++
    enc32 e initial_timestamp ++ enc32 e initial_odb.length ++ initial_odb ++
    events ++
    enc16 e 32769 ++ enc16 e 18765 ++ enc32 e final_run_number ++
    enc32 e final_timestamp ++ enc32 e final_odb.length ++ final_odb

end Parse

/-! ## Helper lemmas about the parsing primitives -/

theorem takeP_append (xs ys : List Nat) : takeP xs.length (xs ++ ys) = some (xs, ys) := by
  simp [takeP]

theorem takeP_some {n : Nat} {input s r : List Nat} (h : takeP n input = some (s, r)) :
    s.length = n ∧ input.length = n + r.length := by
  simp only [takeP] at h
  split at h
  · rename_i hle
    cases h
    constructor
    · simp [List.length_take]; omega
    · simp [List.length_drop]; omega
  · cases h

theorem u16p_some {e : Endianness} {input : List Nat} {v : Nat} {r : List Nat}
    (h : u16p e input = some (v, r)) : ∃ b0 b1, input = b0 :: b1 :: r := by
  match input with
  | [] => cases h
  | [b0] => cases h
  | b0 :: b1 :: rest =>
    simp only [u16p] at h
    cases h
    exact ⟨b0, b1, rfl⟩

theorem u32p_some {e : Endianness} {input : List Nat} {v : Nat} {r : List Nat}
    (h : u32p e input = some (v, r)) : ∃ b0 b1 b2 b3, input = b0 :: b1 :: b2 :: b3 :: r := by
  match input with
  | [] => cases h
  | [_] => cases h
  | [_, _] => cases h
  | [_, _, _] => cases h
  | b0 :: b1 :: b2 :: b3 :: rest =>
    simp only [u32p] at h
    cases h
    exact ⟨b0, b1, b2, b3, rfl⟩

theorem u16p_enc (e : Endianness) (n : Nat) (r : List Nat) (h : n < 65536) :
    u16p e (enc16 e n ++ r) = some (n, r) := by
  cases e <;> simp [enc16, u16p, u16v] <;> omega

theorem u32p_enc (e : Endianness) (n : Nat) (r : List Nat) (h : n < 4294967296) :
    u32p e (enc32 e n ++ r) = some (n, r) := by
  cases e <;> simp [enc32, u32p, u32v] <;> omega


theorem length_take_some {c : ByteP Nat} {i data r : List Nat}
    (h : length_take c i = some (data, r)) :
    ∃ n rest, c i = some (n, rest) ∧ takeP n rest = some (data, r) := by
  simp only [length_take] at h
  cases hc : c i with
  | none => simp [hc] at h
  | some p =>
    obtain ⟨n, rest⟩ := p
    simp only [hc] at h
    exact ⟨n, rest, rfl, h⟩

theorem length_take_u16_some {e : Endianness} {i data r : List Nat}
    (h : length_take (u16p e) i = some (data, r)) :
    i.length = 2 + data.length + r.length := by
  obtain ⟨n, rest, hc, ht⟩ := length_take_some h
  obtain ⟨b0, b1, hi⟩ := u16p_some hc
  obtain ⟨hs, hr⟩ := takeP_some ht
  subst hi
  simp only [List.length_cons]
  omega

theorem length_take_u32_some {e : Endianness} {i data r : List Nat}
    (h : length_take (u32p e) i = some (data, r)) :
    i.length = 4 + data.length + r.length := by
  obtain ⟨n, rest, hc, ht⟩ := length_take_some h
  obtain ⟨b0, b1, b2, b3, hi⟩ := u32p_some hc
  obtain ⟨hs, hr⟩ := takeP_some ht
  subst hi
  simp only [List.length_cons]
  omega

theorem terminated_u32_take4_some {e : Endianness} {i : List Nat} {n : Nat} {rest : List Nat}
    (h : terminatedP (u32p e) (takeP 4) i = some (n, rest)) :
    i.length = 8 + rest.length := by
  simp only [terminatedP] at h
  cases hp : u32p e i with
  | none => simp [hp] at h
  | some s =>
    obtain ⟨m, r1⟩ := s
    obtain ⟨b0, b1, b2, b3, hi⟩ := u32p_some hp
    simp only [hp] at h
    cases hq : takeP 4 r1 with
    | none => simp [hq] at h
    | some t =>
      obtain ⟨sk, r2⟩ := t
      simp only [hq, Option.some.injEq, Prod.mk.injEq] at h
      obtain ⟨-, hr4⟩ := takeP_some hq
      obtain ⟨ha, hr⟩ := h
      subst hi
      subst hr
      simp only [List.length_cons]
      omega

theorem length_take_u32a_some {e : Endianness} {i data r : List Nat}
    (h : length_take (terminatedP (u32p e) (takeP 4)) i = some (data, r)) :
    i.length = 8 + data.length + r.length := by
  obtain ⟨n, rest, hc, ht⟩ := length_take_some h
  have hterm := terminated_u32_take4_some hc
  obtain ⟨hs, hr⟩ := takeP_some ht
  omega

theorem bank_16_view_consumed {e : Endianness} {input : List Nat}
    {v : DataBank.Bank16View} {rest : List Nat}
    (h : DataBank.bank_16_view e input = some (v, rest)) :
    input.length = 8 + v.data_slice.length + rest.length := by
  simp only [DataBank.bank_16_view] at h
  cases h4 : takeP 4 input with
  | none => simp [h4] at h
  | some p =>
    obtain ⟨nm, i1⟩ := p
    obtain ⟨-, hlen4⟩ := takeP_some h4
    simp only [h4] at h
    split at h
    · cases hu : u16p e i1 with
      | none => simp [hu] at h
      | some q =>
        obtain ⟨dtn, i2⟩ := q
        obtain ⟨b0, b1, hi1⟩ := u16p_some hu
        simp only [hu] at h
        cases hdt : DataBank.DataType.try_from dtn with
        | none => simp [hdt] at h
        | some dt =>
          simp only [hdt] at h
          cases hlt : length_take (u16p e) i2 with
          | none => simp [hlt] at h
          | some s =>
            obtain ⟨data, i3⟩ := s
            simp only [hlt] at h
            have hlen := length_take_u16_some hlt
            have hi1len : i1.length = 2 + i2.length := by
              subst hi1; simp only [List.length_cons]; omega
            split at h
            · simp only [Option.some.injEq, Prod.mk.injEq] at h
              obtain ⟨hv, hr⟩ := h
              have hds : v.data_slice = data := by rw [← hv]
              rw [hds, ← hr]
              omega
            · cases h
    · cases h

theorem bank_32_view_consumed {e : Endianness} {input : List Nat}
    {v : DataBank.Bank32View} {rest : List Nat}
    (h : DataBank.bank_32_view e input = some (v, rest)) :
    input.length = 12 + v.data_slice.length + rest.length := by
  simp only [DataBank.bank_32_view] at h
  cases h4 : takeP 4 input with
  | none => simp [h4] at h
  | some p =>
    obtain ⟨nm, i1⟩ := p
    obtain ⟨-, hlen4⟩ := takeP_some h4
    simp only [h4] at h
    split at h
    · cases hu : u32p e i1 with
      | none => simp [hu] at h
      | some q =>
        obtain ⟨dtn, i2⟩ := q
        obtain ⟨b0, b1, b2, b3, hi1⟩ := u32p_some hu
        simp only [hu] at h
        cases hdt : DataBank.DataType.try_from dtn with
        | none => simp [hdt] at h
        | some dt =>
          simp only [hdt] at h
          cases hlt : length_take (u32p e) i2 with
          | none => simp [hlt] at h
          | some s =>
            obtain ⟨data, i3⟩ := s
            simp only [hlt] at h
            have hlen := length_take_u32_some hlt
            have hi1len : i1.length = 4 + i2.length := by
              subst hi1; simp only [List.length_cons]; omega
            split at h
            · simp only [Option.some.injEq, Prod.mk.injEq] at h
              obtain ⟨hv, hr⟩ := h
              have hds : v.data_slice = data := by rw [← hv]
              rw [hds, ← hr]
              omega
            · cases h
    · cases h

theorem bank_32a_view_consumed {e : Endianness} {input : List Nat}
    {v : DataBank.Bank32AView} {rest : List Nat}
    (h : DataBank.bank_32a_view e input = some (v, rest)) :
    input.length = 16 + v.data_slice.length + rest.length := by
  simp only [DataBank.bank_32a_view] at h
  cases h4 : takeP 4 input with
  | none => simp [h4] at h
  | some p =>
    obtain ⟨nm, i1⟩ := p
    obtain ⟨-, hlen4⟩ := takeP_some h4
    simp only [h4] at h
    split at h
    · cases hu : u32p e i1 with
      | none => simp [hu] at h
      | some q =>
        obtain ⟨dtn, i2⟩ := q
        obtain ⟨b0, b1, b2, b3, hi1⟩ := u32p_some hu
        simp only [hu] at h
        cases hdt : DataBank.DataType.try_from dtn with
        | none => simp [hdt] at h
        | some dt =>
          simp only [hdt] at h
          cases hlt : length_take (terminatedP (u32p e) (takeP 4)) i2 with
          | none => simp [hlt] at h
          | some s =>
            obtain ⟨data, i3⟩ := s
            simp only [hlt] at h
            have hlen := length_take_u32a_some hlt
            have hi1len : i1.length = 4 + i2.length := by
              subst hi1; simp only [List.length_cons]; omega
            split at h
            · simp only [Option.some.injEq, Prod.mk.injEq] at h
              obtain ⟨hv, hr⟩ := h
              have hds : v.data_slice = data := by rw [← hv]
              rw [hds, ← hr]
              omega
            · cases h
    · cases h

theorem padded_bank_some {α : Type} {f : ByteP α} {inj : α → DataBank.BankView}
    {input : List Nat} {bv : DataBank.BankView} {rest : List Nat}
    (h : DataBank.padded_bank f inj input = some (bv, rest)) :
    ∃ b i1, f input = some (b, i1) ∧ bv = inj b ∧
      i1.length = bv.required_padding + rest.length := by
  simp only [DataBank.padded_bank] at h
  cases hf : f input with
  | none => simp [hf] at h
  | some p =>
    obtain ⟨b, i1⟩ := p
    simp only [hf] at h
    cases ht : takeP (inj b).required_padding i1 with
    | none => simp [ht] at h
    | some q =>
      obtain ⟨sk, i2⟩ := q
      simp only [ht, Option.some.injEq, Prod.mk.injEq] at h
      obtain ⟨hbv, hr⟩ := h
      obtain ⟨-, hlen⟩ := takeP_some ht
      subst hbv
      subst hr
      exact ⟨b, i1, rfl, rfl, hlen⟩

/-! ## Claim theorems -/

/-- C9: for every bank view, `required_padding` lies in `0..=7` and
rounds the payload length up to a multiple of 8 (this holds for all
views, in particular every successfully decoded one). -/
theorem C9_required_padding_range (bv : DataBank.BankView) :
    bv.required_padding ≤ 7 ∧ (bv.data_slice.length + bv.required_padding) % 8 = 0 := by
  have h : bv.required_padding =
      if bv.data_slice.length % 8 = 0 then 0 else 8 - bv.data_slice.length % 8 := rfl
  constructor
  · rw [h]; split <;> omega
  · rw [h]; split <;> omega

/-- C1 counterexample: the live `parse.rs` bank decoders accept a bank
whose first name byte `0x2E` (the character of value 46) is not ASCII
alphanumeric, in all three layouts, so the claim as stated is false. -/
theorem C1_counterexample :
    is_alphanum 46 = false ∧
    Parse.bank_16_view Endianness.little [46, 65, 77, 69, 1, 0, 0, 0] =
      some ({ name := [46, 65, 77, 69], data_type := Parse.DataType.U8, data := [] }, []) ∧
    Parse.bank_32_view Endianness.little [46, 65, 77, 69, 1, 0, 0, 0, 0, 0, 0, 0] =
      some ({ name := [46, 65, 77, 69], data_type := Parse.DataType.U8, data := [] }, []) ∧
    Parse.bank_32a_view Endianness.little
        [46, 65, 77, 69, 1, 0, 0, 0, 0, 0, 0, 0, 9, 9, 9, 9] =
      some ({ name := [46, 65, 77, 69], data_type := Parse.DataType.U8, data := [] }, []) := by
  exact ⟨rfl, rfl, rfl, rfl⟩

/-- C1 (amended): the `data_bank.rs` bank decoders (all three layouts,
either endianness) fail whenever any of the first 4 name bytes is not
ASCII alphanumeric; the `parse.rs` decoders take the 4 name bytes
without validating them. -/
theorem C1_data_bank_name_validation (e : Endianness) (b0 b1 b2 b3 : Nat) (rest : List Nat)
    (h : ¬(is_alphanum b0 ∧ is_alphanum b1 ∧ is_alphanum b2 ∧ is_alphanum b3)) :
    DataBank.bank_16_view e (b0 :: b1 :: b2 :: b3 :: rest) = none ∧
    DataBank.bank_32_view e (b0 :: b1 :: b2 :: b3 :: rest) = none ∧
    DataBank.bank_32a_view e (b0 :: b1 :: b2 :: b3 :: rest) = none := by
  have h4 : takeP 4 (b0 :: b1 :: b2 :: b3 :: rest) = some ([b0, b1, b2, b3], rest) := by
    simpa using takeP_append [b0, b1, b2, b3] rest
  have hall : ([b0, b1, b2, b3].all is_alphanum) = false := by
    cases hx : [b0, b1, b2, b3].all is_alphanum
    · rfl
    · exfalso
      simp only [List.all_cons, List.all_nil, Bool.and_true, Bool.and_eq_true] at hx
      exact h ⟨hx.1, hx.2.1, hx.2.2.1, hx.2.2.2⟩
  refine ⟨?_, ?_, ?_⟩ <;>
    simp [DataBank.bank_16_view, DataBank.bank_32_view, DataBank.bank_32a_view, h4, hall]

/-- C1 witness: the amended theorem at the concrete name `".AME"`. -/
theorem C1_data_bank_name_validation_witness :
    DataBank.bank_16_view Endianness.little (46 :: 65 :: 77 :: 69 :: [1, 0, 0, 0]) = none ∧
    DataBank.bank_32_view Endianness.little (46 :: 65 :: 77 :: 69 :: [1, 0, 0, 0]) = none ∧
    DataBank.bank_32a_view Endianness.little (46 :: 65 :: 77 :: 69 :: [1, 0, 0, 0]) = none :=
  C1_data_bank_name_validation Endianness.little 46 65 77 69 [1, 0, 0, 0] (by decide)

/-- C2 counterexample: the live `parse.rs` 16-bit bank decoder fails on
a complete, unpadded bank (header 8 bytes + the declared 3 payload
bytes), and on the padded image it also consumes the 5 trailing padding
bytes itself (remaining input is empty, 16 bytes consumed instead of
11); the `data_bank.rs` decoder accepts the unpadded bank, consuming
exactly header + size. -/
theorem C2_counterexample :
    Parse.bank_16_view Endianness.little [78, 65, 77, 69, 1, 0, 3, 0, 255, 255, 255] = none ∧
    Parse.bank_16_view Endianness.little
        [78, 65, 77, 69, 1, 0, 3, 0, 255, 255, 255, 0, 0, 0, 0, 0] =
      some ({ name := [78, 65, 77, 69], data_type := Parse.DataType.U8,
              data := [255, 255, 255] }, []) ∧
    DataBank.bank_16_view Endianness.little [78, 65, 77, 69, 1, 0, 3, 0, 255, 255, 255] =
      some ({ name := [78, 65, 77, 69], data_type := DataBank.DataType.U8,
              data_slice := [255, 255, 255] }, []) := by
  exact ⟨rfl, rfl, rfl⟩

/-- C2 (amended): on success the `data_bank.rs` bank decoders advance
by exactly header length plus declared payload size (8, 12 or 16 plus
`size`), leaving the 0-7 padding bytes to the caller `event.rs`
`padded_bank`, which advances by header + size + `required_padding`; the
`parse.rs` bank decoders instead consume the padding themselves (see the
counterexample). Failure produces no view and no consumption. -/
theorem C2_bank_decoder_consumption (e : Endianness) (input : List Nat) :
    (∀ v rest, DataBank.bank_16_view e input = some (v, rest) →
      input.length = 8 + v.data_slice.length + rest.length) ∧
    (∀ v rest, DataBank.bank_32_view e input = some (v, rest) →
      input.length = 12 + v.data_slice.length + rest.length) ∧
    (∀ v rest, DataBank.bank_32a_view e input = some (v, rest) →
      input.length = 16 + v.data_slice.length + rest.length) ∧
    (∀ bv rest,
      DataBank.padded_bank (DataBank.bank_16_view e) DataBank.BankView.B16 input =
        some (bv, rest) →
      input.length = 8 + bv.data_slice.length + bv.required_padding + rest.length) ∧
    (∀ bv rest,
      DataBank.padded_bank (DataBank.bank_32_view e) DataBank.BankView.B32 input =
        some (bv, rest) →
      input.length = 12 + bv.data_slice.length + bv.required_padding + rest.length) ∧
    (∀ bv rest,
      DataBank.padded_bank (DataBank.bank_32a_view e) DataBank.BankView.B32A input =
        some (bv, rest) →
      input.length = 16 + bv.data_slice.length + bv.required_padding + rest.length) := by
  refine ⟨fun v rest h => bank_16_view_consumed h,
          fun v rest h => bank_32_view_consumed h,
          fun v rest h => bank_32a_view_consumed h, ?_, ?_, ?_⟩
  · intro bv rest h
    obtain ⟨b, i1, hf, hbv, hlen⟩ := padded_bank_some h
    have hc := bank_16_view_consumed hf
    subst hbv
    simp only [DataBank.BankView.data_slice] at hc hlen ⊢
    omega
  · intro bv rest h
    obtain ⟨b, i1, hf, hbv, hlen⟩ := padded_bank_some h
    have hc := bank_32_view_consumed hf
    subst hbv
    simp only [DataBank.BankView.data_slice] at hc hlen ⊢
    omega
  · intro bv rest h
    obtain ⟨b, i1, hf, hbv, hlen⟩ := padded_bank_some h
    have hc := bank_32a_view_consumed hf
    subst hbv
    simp only [DataBank.BankView.data_slice] at hc hlen ⊢
    omega

/-- The concrete 3-byte `U8` bank view used by the C2 witness. -/
def c2_bank : DataBank.Bank16View :=
  { name := [78, 65, 77, 69], data_type := DataBank.DataType.U8, data_slice := [255, 255, 255] }

/-- C2 witness: the amended theorem evaluated on a concrete 3-byte `U8`
bank, bare (consumes 11 = 8 + 3 bytes) and padded (consumes
16 = 8 + 3 + 5 bytes). -/
theorem C2_bank_decoder_consumption_witness :
    ([78, 65, 77, 69, 1, 0, 3, 0, 255, 255, 255] : List Nat).length =
      8 + c2_bank.data_slice.length + ([] : List Nat).length ∧
    ([78, 65, 77, 69, 1, 0, 3, 0, 255, 255, 255, 0, 0, 0, 0, 0] : List Nat).length =
      8 + (DataBank.BankView.B16 c2_bank).data_slice.length +
        (DataBank.BankView.B16 c2_bank).required_padding + ([] : List Nat).length := by
  constructor
  · exact (C2_bank_decoder_consumption Endianness.little
      [78, 65, 77, 69, 1, 0, 3, 0, 255, 255, 255]).1 c2_bank [] (by decide)
  · exact (C2_bank_decoder_consumption Endianness.little
      [78, 65, 77, 69, 1, 0, 3, 0, 255, 255, 255, 0, 0, 0, 0, 0]).2.2.2.1
      (DataBank.BankView.B16 c2_bank) [] (by decide)

/-- C3: file decoding reads the first two bytes as a little-endian
16-bit value; `0x8000` selects little endian, a value whose byte swap is
`0x8000` selects big endian, and any other value makes `endianness` (and
thus `file_view`, which starts with it and threads the detected order
through every later field) fail. -/
theorem C3_endianness_detection (b0 b1 : Nat) (rest : List Nat)
    (hb0 : b0 < 256) (hb1 : b1 < 256) :
    (b0 + 256 * b1 = 32768 →
      Parse.endianness (b0 :: b1 :: rest) = some (Endianness.little, rest)) ∧
    (b1 + 256 * b0 = 32768 →
      Parse.endianness (b0 :: b1 :: rest) = some (Endianness.big, rest)) ∧
    (b0 + 256 * b1 ≠ 32768 → b1 + 256 * b0 ≠ 32768 →
      Parse.endianness (b0 :: b1 :: rest) = none ∧
      Parse.file_view (b0 :: b1 :: rest) = none) := by
  have hu : u16p Endianness.little (b0 :: b1 :: rest) = some (b0 + 256 * b1, rest) := rfl
  refine ⟨?_, ?_, ?_⟩
  · intro hle
    simp [Parse.endianness, hu, hle]
  · intro hbe
    have hb0v : b0 = 128 := by omega
    have hb1v : b1 = 0 := by omega
    subst hb0v
    subst hb1v
    simp [Parse.endianness, hu]
  · intro h1 h2
    have hne : b0 + 256 * b1 ≠ 128 := fun hx => h2 (by omega)
    have he : Parse.endianness (b0 :: b1 :: rest) = none := by
      simp [Parse.endianness, hu, h1, hne]
    exact ⟨he, by simp [Parse.file_view, he]⟩

/-- C3 witness: the three dispatch outcomes on the byte pairs
`[0, 128]`, `[128, 0]` and `[1, 1]`. -/
theorem C3_endianness_detection_witness :
    Parse.endianness (0 :: 128 :: ([] : List Nat)) = some (Endianness.little, []) ∧
    Parse.endianness (128 :: 0 :: ([] : List Nat)) = some (Endianness.big, []) ∧
    (Parse.endianness (1 :: 1 :: ([] : List Nat)) = none ∧
      Parse.file_view (1 :: 1 :: []) = none) := by
  refine ⟨?_, ?_, ?_⟩
  · exact (C3_endianness_detection 0 128 [] (by decide) (by decide)).1 (by decide)
  · exact (C3_endianness_detection 128 0 [] (by decide) (by decide)).2.1 (by decide)
  · exact (C3_endianness_detection 1 1 [] (by decide) (by decide)).2.2 (by decide) (by decide)

/-- C4: event decoding gets past the two size fields if and only if the
declared `event_size` is at least 8 and the declared `banks_size` equals
`event_size - 8`; otherwise it fails regardless of the remaining buffer
contents, and when both checks pass it proceeds to the flags dispatch
over the remaining bytes. -/
theorem C4_event_size_checks (e : Endianness) (id tm sn ts es bs : Nat) (rest : List Nat)
    (hid : id < 65536) (htm : tm < 65536) (hsn : sn < 4294967296)
    (hts : ts < 4294967296) (hes : es < 4294967296) (hbs : bs < 4294967296) :
    (¬(8 ≤ es ∧ bs = es - 8) →
      Parse.event_view e (enc16 e id ++ (enc16 e tm ++ (enc32 e sn ++ (enc32 e ts ++
        (enc32 e es ++ (enc32 e bs ++ rest)))))) = none) ∧
    (8 ≤ es → bs = es - 8 →
      Parse.event_view e (enc16 e id ++ (enc16 e tm ++ (enc32 e sn ++ (enc32 e ts ++
        (enc32 e es ++ (enc32 e bs ++ rest)))))) =
      (Parse.event_banks e bs rest).map (fun p =>
        ({ id := id, trigger_mask := tm, serial_number := sn, timestamp := ts,
           bank_views := p.1 }, p.2))) := by
  constructor
  · intro hno
    by_cases h8 : 8 ≤ es
    · have hbne : bs ≠ es - 8 := fun hx => hno ⟨h8, hx⟩
      simp [Parse.event_view, u16p_enc, u32p_enc, hid, htm, hsn, hts, hes, hbs, h8, hbne]
    · simp [Parse.event_view, u16p_enc, u32p_enc, hid, htm, hsn, hts, hes, hbs, h8]
  · intro h8 hbe
    subst hbe
    cases hEB : Parse.event_banks e (es - 8) rest with
    | none =>
      simp [Parse.event_view, u16p_enc, u32p_enc, hid, htm, hsn, hts, hes, hbs, h8, hEB]
    | some p =>
      obtain ⟨bvs, r⟩ := p
      simp [Parse.event_view, u16p_enc, u32p_enc, hid, htm, hsn, hts, hes, hbs, h8, hEB]

/-- C4 witness: an event header with `event_size = 7` fails; one with
`event_size = 8`, `banks_size = 0` reaches the flags dispatch. -/
theorem C4_event_size_checks_witness :
    Parse.event_view Endianness.little
      (enc16 Endianness.little 1 ++ (enc16 Endianness.little 2 ++
        (enc32 Endianness.little 3 ++ (enc32 Endianness.little 4 ++
        (enc32 Endianness.little 7 ++ (enc32 Endianness.little 0 ++ [])))))) = none ∧
    Parse.event_view Endianness.little
      (enc16 Endianness.little 1 ++ (enc16 Endianness.little 2 ++
        (enc32 Endianness.little 3 ++ (enc32 Endianness.little 4 ++
        (enc32 Endianness.little 8 ++ (enc32 Endianness.little 0 ++ [1, 0, 0, 0])))))) =
      (Parse.event_banks Endianness.little 0 [1, 0, 0, 0]).map (fun p =>
        ({ id := 1, trigger_mask := 2, serial_number := 3, timestamp := 4,
           bank_views := p.1 }, p.2)) := by
  constructor
  · exact (C4_event_size_checks Endianness.little 1 2 3 4 7 0 [] (by decide) (by decide)
      (by decide) (by decide) (by decide) (by decide)).1 (by decide)
  · exact (C4_event_size_checks Endianness.little 1 2 3 4 8 0 [1, 0, 0, 0] (by decide)
      (by decide) (by decide) (by decide) (by decide) (by decide)).2 (by decide) (by decide)

/-- C5: with a consistent size header (`event_size = banks_size + 8`),
event decoding dispatches on the exact 32-bit flags value: 1 decodes the
banks region with the compact 16-bit layout, 17 with the standard 32-bit
layout, 49 with the 64-bit-aligned layout (every bank decoded by that
one layout parser), and any other flags value fails. -/
theorem C5_flags_dispatch (e : Endianness) (id tm sn ts bs f : Nat) (rest : List Nat)
    (hid : id < 65536) (htm : tm < 65536) (hsn : sn < 4294967296)
    (hts : ts < 4294967296) (hbs8 : bs + 8 < 4294967296) (hf : f < 4294967296) :
    (f = 1 →
      Parse.event_view e (enc16 e id ++ (enc16 e tm ++ (enc32 e sn ++ (enc32 e ts ++
        (enc32 e (bs + 8) ++ (enc32 e bs ++ (enc32 e f ++ rest))))))) =
      (length_and_then bs (repeat_till_eof (Parse.bank_16_view e)) rest).map (fun p =>
        ({ id := id, trigger_mask := tm, serial_number := sn, timestamp := ts,
           bank_views := p.1 }, p.2))) ∧
    (f = 17 →
      Parse.event_view e (enc16 e id ++ (enc16 e tm ++ (enc32 e sn ++ (enc32 e ts ++
        (enc32 e (bs + 8) ++ (enc32 e bs ++ (enc32 e f ++ rest))))))) =
      (length_and_then bs (repeat_till_eof (Parse.bank_32_view e)) rest).map (fun p =>
        ({ id := id, trigger_mask := tm, serial_number := sn, timestamp := ts,
           bank_views := p.1 }, p.2))) ∧
    (f = 49 →
      Parse.event_view e (enc16 e id ++ (enc16 e tm ++ (enc32 e sn ++ (enc32 e ts ++
        (enc32 e (bs + 8) ++ (enc32 e bs ++ (enc32 e f ++ rest))))))) =
      (length_and_then bs (repeat_till_eof (Parse.bank_32a_view e)) rest).map (fun p =>
        ({ id := id, trigger_mask := tm, serial_number := sn, timestamp := ts,
           bank_views := p.1 }, p.2))) ∧
    (f ≠ 1 → f ≠ 17 → f ≠ 49 →
      Parse.event_view e (enc16 e id ++ (enc16 e tm ++ (enc32 e sn ++ (enc32 e ts ++
        (enc32 e (bs + 8) ++ (enc32 e bs ++ (enc32 e f ++ rest))))))) = none) := by
  have hbs : bs < 4294967296 := by omega
  have h8 : 8 ≤ bs + 8 := by omega
  have hsub : bs + 8 - 8 = bs := by omega
  refine ⟨?_, ?_, ?_, ?_⟩
  · intro hfv
    subst hfv
    cases hLB : length_and_then bs (repeat_till_eof (Parse.bank_16_view e)) rest with
    | none =>
      simp [Parse.event_view, Parse.event_banks, u16p_enc, u32p_enc,
            hid, htm, hsn, hts, hbs8, hbs, h8, hsub, hLB]
    | some p =>
      obtain ⟨bvs, r⟩ := p
      simp [Parse.event_view, Parse.event_banks, u16p_enc, u32p_enc,
            hid, htm, hsn, hts, hbs8, hbs, h8, hsub, hLB]
  · intro hfv
    subst hfv
    cases hLB : length_and_then bs (repeat_till_eof (Parse.bank_32_view e)) rest with
    | none =>
      simp [Parse.event_view, Parse.event_banks, u16p_enc, u32p_enc,
            hid, htm, hsn, hts, hbs8, hbs, h8, hsub, hLB]
    | some p =>
      obtain ⟨bvs, r⟩ := p
      simp [Parse.event_view, Parse.event_banks, u16p_enc, u32p_enc,
            hid, htm, hsn, hts, hbs8, hbs, h8, hsub, hLB]
  · intro hfv
    subst hfv
    cases hLB : length_and_then bs (repeat_till_eof (Parse.bank_32a_view e)) rest with
    | none =>
      simp [Parse.event_view, Parse.event_banks, u16p_enc, u32p_enc,
            hid, htm, hsn, hts, hbs8, hbs, h8, hsub, hLB]
    | some p =>
      obtain ⟨bvs, r⟩ := p
      simp [Parse.event_view, Parse.event_banks, u16p_enc, u32p_enc,
            hid, htm, hsn, hts, hbs8, hbs, h8, hsub, hLB]
  · intro h1 h17 h49
    simp [Parse.event_view, Parse.event_banks, u16p_enc, u32p_enc,
          hid, htm, hsn, hts, hbs8, hbs, hf, h8, hsub, h1, h17, h49]

/-- C5 witness: the four dispatch outcomes at flags 1, 17, 49 and 5 on a
zero-length banks region. -/
theorem C5_flags_dispatch_witness :
    (Parse.event_view Endianness.little
      (enc16 Endianness.little 1 ++ (enc16 Endianness.little 2 ++
        (enc32 Endianness.little 3 ++ (enc32 Endianness.little 4 ++
        (enc32 Endianness.little (0 + 8) ++ (enc32 Endianness.little 0 ++
        (enc32 Endianness.little 1 ++ []))))))) =
      (length_and_then 0 (repeat_till_eof (Parse.bank_16_view Endianness.little)) []).map
        (fun p =>
          ({ id := 1, trigger_mask := 2, serial_number := 3, timestamp := 4,
             bank_views := p.1 }, p.2))) ∧
    (Parse.event_view Endianness.little
      (enc16 Endianness.little 1 ++ (enc16 Endianness.little 2 ++
        (enc32 Endianness.little 3 ++ (enc32 Endianness.little 4 ++
        (enc32 Endianness.little (0 + 8) ++ (enc32 Endianness.little 0 ++
        (enc32 Endianness.little 49 ++ []))))))) =
      (length_and_then 0 (repeat_till_eof (Parse.bank_32a_view Endianness.little)) []).map
        (fun p =>
          ({ id := 1, trigger_mask := 2, serial_number := 3, timestamp := 4,
             bank_views := p.1 }, p.2))) ∧
    Parse.event_view Endianness.little
      (enc16 Endianness.little 1 ++ (enc16 Endianness.little 2 ++
        (enc32 Endianness.little 3 ++ (enc32 Endianness.little 4 ++
        (enc32 Endianness.little (0 + 8) ++ (enc32 Endianness.little 0 ++
        (enc32 Endianness.little 5 ++ []))))))) = none := by
  refine ⟨?_, ?_, ?_⟩
  · exact (C5_flags_dispatch Endianness.little 1 2 3 4 0 1 [] (by decide) (by decide)
      (by decide) (by decide) (by decide) (by decide)).1 rfl
  · exact (C5_flags_dispatch Endianness.little 1 2 3 4 0 49 [] (by decide) (by decide)
      (by decide) (by decide) (by decide) (by decide)).2.2.1 rfl
  · exact (C5_flags_dispatch Endianness.little 1 2 3 4 0 5 [] (by decide) (by decide)
      (by decide) (by decide) (by decide) (by decide)).2.2.2 (by decide) (by decide) (by decide)

/-- C7: an event declaring `event_size = 8`, `banks_size = 0` and a
valid flags value decodes successfully to an event view with an empty
bank sequence, consuming nothing past its header. -/
theorem C7_zero_banks (e : Endianness) (id tm sn ts f : Nat) (rest : List Nat)
    (hid : id < 65536) (htm : tm < 65536) (hsn : sn < 4294967296) (hts : ts < 4294967296)
    (hf : f = 1 ∨ f = 17 ∨ f = 49) :
    Parse.event_view e (enc16 e id ++ (enc16 e tm ++ (enc32 e sn ++ (enc32 e ts ++
      (enc32 e 8 ++ (enc32 e 0 ++ (enc32 e f ++ rest))))))) =
      some ({ id := id, trigger_mask := tm, serial_number := sn, timestamp := ts,
              bank_views := [] }, rest) := by
  rcases hf with hf | hf | hf <;> subst hf <;>
    simp [Parse.event_view, Parse.event_banks, length_and_then, repeat_till_eof,
          repeat_till_eof_fuel, u16p_enc, u32p_enc, hid, htm, hsn, hts]

/-- C7 witness: the zero-bank event at concrete header values. -/
theorem C7_zero_banks_witness :
    Parse.event_view Endianness.little
      (enc16 Endianness.little 1 ++ (enc16 Endianness.little 2 ++
        (enc32 Endianness.little 3 ++ (enc32 Endianness.little 4 ++
        (enc32 Endianness.little 8 ++ (enc32 Endianness.little 0 ++
        (enc32 Endianness.little 17 ++ [5, 5]))))))) =
      some ({ id := 1, trigger_mask := 2, serial_number := 3, timestamp := 4,
              bank_views := [] }, [5, 5]) :=
  C7_zero_banks Endianness.little 1 2 3 4 17 [5, 5] (by decide) (by decide)
    (by decide) (by decide) (Or.inr (Or.inl rfl))

theorem takeP_four {l : List Nat} (h : l.length = 4) (ys : List Nat) :
    takeP 4 (l ++ ys) = some (l, ys) := by
  rw [← h]
  exact takeP_append l ys

theorem list_length_four {l : List Nat} (h : l.length = 4) :
    ∃ a b c d, l = [a, b, c, d] := by
  match l with
  | [a, b, c, d] => exact ⟨a, b, c, d, rfl⟩

/-- C8: in the 64-bit-aligned bank layout (both generations), the 4-byte
reserved field between the size field and the payload is consumed but
never affects the outcome: two buffers differing only in those 4 bytes
decode identically (same failure, or same name, data type, payload and
remaining input). -/
theorem C8_reserved_field_ignored (e : Endianness) (nm t4 s4 r1 r2 rest : List Nat)
    (hnm : nm.length = 4) (ht : t4.length = 4) (hs : s4.length = 4)
    (hr1 : r1.length = 4) (hr2 : r2.length = 4) :
    Parse.bank_32a_view e (nm ++ (t4 ++ (s4 ++ (r1 ++ rest)))) =
      Parse.bank_32a_view e (nm ++ (t4 ++ (s4 ++ (r2 ++ rest)))) ∧
    DataBank.bank_32a_view e (nm ++ (t4 ++ (s4 ++ (r1 ++ rest)))) =
      DataBank.bank_32a_view e (nm ++ (t4 ++ (s4 ++ (r2 ++ rest)))) := by
  obtain ⟨t0, t1, t2, t3, ht4⟩ := list_length_four ht
  subst ht4
  obtain ⟨s0, s1, s2, s3, hs4⟩ := list_length_four hs
  subst hs4
  have hA : ∀ (rr : List Nat), rr.length = 4 →
      terminatedP (u32p e) (takeP 4) (s0 :: s1 :: s2 :: s3 :: (rr ++ rest)) =
        some (u32v e s0 s1 s2 s3, rest) := by
    intro rr hrr
    simp [terminatedP, u32p, takeP_four hrr]
  constructor
  · simp only [Parse.bank_32a_view, List.cons_append, List.nil_append, takeP_four hnm,
      u32p, length_take, hA r1 hr1, hA r2 hr2]
  · simp only [DataBank.bank_32a_view, List.cons_append, List.nil_append, takeP_four hnm,
      u32p, length_take, hA r1 hr1, hA r2 hr2]

/-- C8 witness: two concrete 64-bit-aligned banks differing only in the
reserved bytes (`[0,0,0,0]` against `[255,255,255,255]`) decode
identically in both generations. -/
theorem C8_reserved_field_ignored_witness :
    Parse.bank_32a_view Endianness.little
        ([78, 65, 77, 69] ++ ([1, 0, 0, 0] ++ ([1, 0, 0, 0] ++ ([0, 0, 0, 0] ++ [9, 0, 0, 0, 0, 0, 0, 0])))) =
      Parse.bank_32a_view Endianness.little
        ([78, 65, 77, 69] ++ ([1, 0, 0, 0] ++ ([1, 0, 0, 0] ++ ([255, 255, 255, 255] ++ [9, 0, 0, 0, 0, 0, 0, 0])))) ∧
    DataBank.bank_32a_view Endianness.little
        ([78, 65, 77, 69] ++ ([1, 0, 0, 0] ++ ([1, 0, 0, 0] ++ ([0, 0, 0, 0] ++ [9, 0, 0, 0, 0, 0, 0, 0])))) =
      DataBank.bank_32a_view Endianness.little
        ([78, 65, 77, 69] ++ ([1, 0, 0, 0] ++ ([1, 0, 0, 0] ++ ([255, 255, 255, 255] ++ [9, 0, 0, 0, 0, 0, 0, 0])))) :=
  C8_reserved_field_ignored Endianness.little [78, 65, 77, 69] [1, 0, 0, 0] [1, 0, 0, 0]
    [0, 0, 0, 0] [255, 255, 255, 255] [9, 0, 0, 0, 0, 0, 0, 0]
    rfl rfl rfl rfl rfl

theorem endianness_enc (e : Endianness) (r : List Nat) :
    Parse.endianness (enc16 e 32768 ++ r) = some (e, r) := by
  cases e <;> simp [Parse.endianness, enc16, u16p, u16v]

theorem length_take_enc (e : Endianness) (ys r : List Nat) (h : ys.length < 4294967296) :
    length_take (u32p e) (enc32 e ys.length ++ (ys ++ r)) = some (ys, r) := by
  simp [length_take, u32p_enc e ys.length (ys ++ r) h, takeP_append]

theorem length_take_enc_nil (e : Endianness) (ys : List Nat) (h : ys.length < 4294967296) :
    length_take (u32p e) (enc32 e ys.length ++ ys) = some (ys, []) := by
  simpa using length_take_enc e ys [] h

/-- C6: for a file image whose event region parses cleanly (the event
repetition stops exactly at the closing envelope), decoding fails
whenever the closing run number differs from the opening one, and when
they agree it succeeds and the resulting view reports that run
number. -/
theorem C6_run_number_mismatch (e : Endianness) (rn ts1 : Nat) (odb1 ev : List Nat)
    (rn2 ts2 : Nat) (odb2 : List Nat) (evs : List Parse.EventView)
    (hrn : rn < 4294967296) (hrn2 : rn2 < 4294967296)
    (hts1 : ts1 < 4294967296) (hts2 : ts2 < 4294967296)
    (ho1 : odb1.length < 4294967296) (ho2 : odb2.length < 4294967296)
    (hev : repeat0 (Parse.event_view e)
        (ev ++ (enc16 e 32769 ++ (enc16 e 18765 ++ (enc32 e rn2 ++ (enc32 e ts2 ++
          (enc32 e odb2.length ++ odb2)))))) =
      (evs, enc16 e 32769 ++ (enc16 e 18765 ++ (enc32 e rn2 ++ (enc32 e ts2 ++
        (enc32 e odb2.length ++ odb2)))))) :
    (rn2 ≠ rn →
      Parse.FileView.try_from_bytes (Parse.file_bytes e rn ts1 odb1 ev rn2 ts2 odb2) = none) ∧
    (rn2 = rn →
      Parse.FileView.try_from_bytes (Parse.file_bytes e rn ts1 odb1 ev rn2 ts2 odb2) =
      some { run_number := rn, initial_timestamp := ts1, initial_odb := odb1,
             event_views := evs, final_timestamp := ts2, final_odb := odb2 }) := by
  have hbytes : Parse.file_bytes e rn ts1 odb1 ev rn2 ts2 odb2 =
      enc16 e 32768 ++ (enc16 e 18765 ++ (enc32 e rn ++ (enc32 e ts1 ++
        (enc32 e odb1.length ++ (odb1 ++ (ev ++ (enc16 e 32769 ++ (enc16 e 18765 ++
        (enc32 e rn2 ++ (enc32 e ts2 ++ (enc32 e odb2.length ++ odb2))))))))))) := by
    simp [Parse.file_bytes, List.append_assoc]
  constructor
  · intro hne
    have hfv : Parse.file_view (Parse.file_bytes e rn ts1 odb1 ev rn2 ts2 odb2) = none := by
      rw [hbytes]
      simp [Parse.file_view, endianness_enc, u16p_enc, u32p_enc, length_take_enc,
        length_take_enc_nil, hrn, hrn2, hts1, hts2, ho1, ho2, hev, hne]
    simp [Parse.FileView.try_from_bytes, parseAll, hfv]
  · intro heq
    subst heq
    have hfv : Parse.file_view (Parse.file_bytes e rn2 ts1 odb1 ev rn2 ts2 odb2) =
        some ({ run_number := rn2, initial_timestamp := ts1, initial_odb := odb1,
                event_views := evs, final_timestamp := ts2, final_odb := odb2 }, []) := by
      rw [hbytes]
      simp [Parse.file_view, endianness_enc, u16p_enc, u32p_enc, length_take_enc,
        length_take_enc_nil, hrn, hrn2, hts1, hts2, ho1, ho2, hev]
    simp [Parse.FileView.try_from_bytes, parseAll, hfv]

/-- C6 witness: a minimal little-endian file with no events; closing
run number 2 against opening 1 fails, matching run numbers succeed and
report run number 1. -/
theorem C6_run_number_mismatch_witness :
    Parse.FileView.try_from_bytes (Parse.file_bytes Endianness.little 1 2 [] [] 2 3 []) =
      none ∧
    Parse.FileView.try_from_bytes (Parse.file_bytes Endianness.little 1 2 [] [] 1 3 []) =
      some { run_number := 1, initial_timestamp := 2, initial_odb := [],
             event_views := [], final_timestamp := 3, final_odb := [] } := by
  constructor
  · exact (C6_run_number_mismatch Endianness.little 1 2 [] [] 2 3 [] [] (by decide)
      (by decide) (by decide) (by decide) (by decide) (by decide) (by decide)).1 (by decide)
  · exact (C6_run_number_mismatch Endianness.little 1 2 [] [] 1 3 [] [] (by decide)
      (by decide) (by decide) (by decide) (by decide) (by decide) (by decide)).2 rfl

theorem takeP_two (a b : Nat) (r : List Nat) : takeP 2 (a :: b :: r) = some ([a, b], r) := by
  unfold takeP
  rw [if_pos (by simp only [List.length_cons]; omega)]
  rfl

theorem takeP_six (a b c d f g : Nat) (r : List Nat) :
    takeP 6 (a :: b :: c :: d :: f :: g :: r) = some ([a, b, c, d, f, g], r) := by
  unfold takeP
  rw [if_pos (by simp only [List.length_cons]; omega)]
  rfl

theorem endianness_some {input : List Nat} {e : Endianness} {i0 : List Nat}
    (h : Parse.endianness input = some (e, i0)) : ∃ b0 b1, input = b0 :: b1 :: i0 := by
  simp only [Parse.endianness] at h
  cases hu : u16p Endianness.little input with
  | none => simp [hu] at h
  | some p =>
    obtain ⟨v, r⟩ := p
    simp only [hu] at h
    obtain ⟨b0, b1, hi⟩ := u16p_some hu
    split at h
    · simp only [Option.some.injEq, Prod.mk.injEq] at h
      obtain ⟨-, hr⟩ := h
      subst hr
      exact ⟨b0, b1, hi⟩
    · split at h
      · simp only [Option.some.injEq, Prod.mk.injEq] at h
        obtain ⟨-, hr⟩ := h
        subst hr
        exact ⟨b0, b1, hi⟩
      · cases h

theorem run_number_unchecked_some_len {bytes : List Nat} {r : Nat}
    (h : Parse.run_number_unchecked bytes = some r) : 8 ≤ bytes.length := by
  simp only [Parse.run_number_unchecked, parseAll] at h
  cases hE : Parse.endianness bytes with
  | none => simp [hE] at h
  | some p =>
    obtain ⟨e, i0⟩ := p
    simp only [hE] at h
    obtain ⟨b0, b1, hb⟩ := endianness_some hE
    cases hT : takeP 2 i0 with
    | none => simp [hT] at h
    | some q =>
      obtain ⟨sk, i1⟩ := q
      simp only [hT] at h
      obtain ⟨-, hlen2⟩ := takeP_some hT
      cases hU : u32p e i1 with
      | none => simp [hU] at h
      | some u =>
        obtain ⟨rn, i2⟩ := u
        obtain ⟨c0, c1, c2, c3, hi1⟩ := u32p_some hU
        have hi1len : i1.length = 4 + i2.length := by
          rw [hi1]; simp only [List.length_cons]; omega
        subst hb
        simp only [List.length_cons]
        omega

theorem initial_timestamp_unchecked_some_len {bytes : List Nat} {r : Nat}
    (h : Parse.initial_timestamp_unchecked bytes = some r) : 12 ≤ bytes.length := by
  simp only [Parse.initial_timestamp_unchecked, parseAll] at h
  cases hE : Parse.endianness bytes with
  | none => simp [hE] at h
  | some p =>
    obtain ⟨e, i0⟩ := p
    simp only [hE] at h
    obtain ⟨b0, b1, hb⟩ := endianness_some hE
    cases hT : takeP 6 i0 with
    | none => simp [hT] at h
    | some q =>
      obtain ⟨sk, i1⟩ := q
      simp only [hT] at h
      obtain ⟨-, hlen6⟩ := takeP_some hT
      cases hU : u32p e i1 with
      | none => simp [hU] at h
      | some u =>
        obtain ⟨rn, i2⟩ := u
        obtain ⟨c0, c1, c2, c3, hi1⟩ := u32p_some hU
        have hi1len : i1.length = 4 + i2.length := by
          rw [hi1]; simp only [List.length_cons]; omega
        subst hb
        simp only [List.length_cons]
        omega

theorem file_view_some {bytes : List Nat} {fv : Parse.FileView} {rem : List Nat}
    (h : Parse.file_view bytes = some (fv, rem)) :
    ∃ e m0 m1 c0 c1 c2 c3 d0 d1 d2 d3 i3,
      Parse.endianness bytes =
        some (e, m0 :: m1 :: c0 :: c1 :: c2 :: c3 :: d0 :: d1 :: d2 :: d3 :: i3) ∧
      fv.run_number = u32v e c0 c1 c2 c3 ∧
      fv.initial_timestamp = u32v e d0 d1 d2 d3 := by
  simp only [Parse.file_view] at h
  cases hE : Parse.endianness bytes with
  | none => simp [hE] at h
  | some p =>
    obtain ⟨e, i0⟩ := p
    simp only [hE] at h
    cases hM : u16p e i0 with
    | none => simp [hM] at h
    | some q =>
      obtain ⟨magic, i1⟩ := q
      simp only [hM] at h
      obtain ⟨m0, m1, hi0⟩ := u16p_some hM
      split at h
      · cases hR : u32p e i1 with
        | none => simp [hR] at h
        | some u =>
          obtain ⟨rn, i2⟩ := u
          simp only [hR] at h
          obtain ⟨c0, c1, c2, c3, hi1⟩ := u32p_some hR
          have hrnv : rn = u32v e c0 c1 c2 c3 := by
            have hr2 : u32p e (c0 :: c1 :: c2 :: c3 :: i2) =
                some (u32v e c0 c1 c2 c3, i2) := rfl
            rw [hi1] at hR
            have := hr2.symm.trans hR
            simp only [Option.some.injEq, Prod.mk.injEq] at this
            exact this.1.symm
          cases hT : u32p e i2 with
          | none => simp [hT] at h
          | some v =>
            obtain ⟨its, i3⟩ := v
            simp only [hT] at h
            obtain ⟨d0, d1, d2, d3, hi2⟩ := u32p_some hT
            have htsv : its = u32v e d0 d1 d2 d3 := by
              have ht2 : u32p e (d0 :: d1 :: d2 :: d3 :: i3) =
                  some (u32v e d0 d1 d2 d3, i3) := rfl
              rw [hi2] at hT
              have := ht2.symm.trans hT
              simp only [Option.some.injEq, Prod.mk.injEq] at this
              exact this.1.symm
            cases hO : length_take (u32p e) i3 with
            | none => simp [hO] at h
            | some w =>
              obtain ⟨odb1, i4⟩ := w
              simp only [hO] at h
              rcases hREP : repeat0 (Parse.event_view e) i4 with ⟨evs, i5⟩
              simp only [hREP] at h
              cases hEOR : u16p e i5 with
              | none => simp [hEOR] at h
              | some x =>
                obtain ⟨eor, i6⟩ := x
                simp only [hEOR] at h
                split at h
                · cases hM2 : u16p e i6 with
                  | none => simp [hM2] at h
                  | some y =>
                    obtain ⟨magic2, i7⟩ := y
                    simp only [hM2] at h
                    split at h
                    · cases hR2 : u32p e i7 with
                      | none => simp [hR2] at h
                      | some z =>
                        obtain ⟨rn2, i8⟩ := z
                        simp only [hR2] at h
                        split at h
                        · cases hT2 : u32p e i8 with
                          | none => simp [hT2] at h
                          | some zz =>
                            obtain ⟨ts2, i9⟩ := zz
                            simp only [hT2] at h
                            cases hO2 : length_take (u32p e) i9 with
                            | none => simp [hO2] at h
                            | some ww =>
                              obtain ⟨odb2, i10⟩ := ww
                              simp only [hO2, Option.some.injEq, Prod.mk.injEq] at h
                              obtain ⟨hfv, -⟩ := h
                              refine ⟨e, m0, m1, c0, c1, c2, c3, d0, d1, d2, d3, i3,
                                ?_, ?_, ?_⟩
                              · rw [hi0, hi1, hi2]
                              · rw [← hfv, ← hrnv]
                              · rw [← hfv, ← htsv]
                        · cases h
                    · cases h
                · cases h
      · cases h

/-- C10: the "unchecked" entry points still fail when the first two
bytes are not the begin-of-run marker `0x8000` in either byte order, or
when the buffer is too short for the requested scalar (8 bytes for the
run number, 12 for the initial timestamp); and on any buffer the full
file decode accepts, they return exactly the scalar the full decode
reports. -/
theorem C10_unchecked_guarantees (bytes : List Nat) :
    (∀ b0 b1 rest, bytes = b0 :: b1 :: rest → b0 < 256 → b1 < 256 →
      ¬(b0 = 0 ∧ b1 = 128) → ¬(b0 = 128 ∧ b1 = 0) →
      Parse.run_number_unchecked bytes = none ∧
      Parse.initial_timestamp_unchecked bytes = none) ∧
    (bytes.length < 8 → Parse.run_number_unchecked bytes = none) ∧
    (bytes.length < 12 → Parse.initial_timestamp_unchecked bytes = none) ∧
    (∀ fv, Parse.FileView.try_from_bytes bytes = some fv →
      Parse.run_number_unchecked bytes = some fv.run_number ∧
      Parse.initial_timestamp_unchecked bytes = some fv.initial_timestamp) := by
  refine ⟨?_, ?_, ?_, ?_⟩
  · intro b0 b1 rest hb hb0 hb1 hm1 hm2
    subst hb
    have h1 : b0 + 256 * b1 ≠ 32768 := fun hx => hm1 ⟨by omega, by omega⟩
    have h2 : b0 + 256 * b1 ≠ 128 := fun hx => hm2 ⟨by omega, by omega⟩
    have hend : Parse.endianness (b0 :: b1 :: rest) = none := by
      simp [Parse.endianness, u16p, u16v, h1, h2]
    constructor
    · simp [Parse.run_number_unchecked, parseAll, hend]
    · simp [Parse.initial_timestamp_unchecked, parseAll, hend]
  · intro hlen
    cases hr : Parse.run_number_unchecked bytes with
    | none => rfl
    | some r => exact absurd (run_number_unchecked_some_len hr) (by omega)
  · intro hlen
    cases hr : Parse.initial_timestamp_unchecked bytes with
    | none => rfl
    | some r => exact absurd (initial_timestamp_unchecked_some_len hr) (by omega)
  · intro fv hfull
    simp only [Parse.FileView.try_from_bytes, parseAll] at hfull
    cases hfv : Parse.file_view bytes with
    | none => simp [hfv] at hfull
    | some p =>
      obtain ⟨fv2, rem⟩ := p
      simp only [hfv] at hfull
      cases rem with
      | cons x xs => simp at hfull
      | nil =>
        have hfveq : fv2 = fv := by simpa using hfull
        subst hfveq
        obtain ⟨e, m0, m1, c0, c1, c2, c3, d0, d1, d2, d3, i3, hE, hRN, hTS⟩ :=
          file_view_some hfv
        constructor
        · simp only [Parse.run_number_unchecked, parseAll, hE, takeP_two, u32p]
          rw [hRN]
        · simp only [Parse.initial_timestamp_unchecked, parseAll, hE, takeP_six, u32p]
          rw [hTS]

/-- The file view produced by the minimal file used in the C10 witness. -/
def c10_file_view : Parse.FileView :=
  { run_number := 1, initial_timestamp := 2, initial_odb := [],
    event_views := [], final_timestamp := 3, final_odb := [] }

/-- C10 witness: a wrong marker fails, short buffers fail, and on a
fully valid minimal file both unchecked readers agree with the full
decode. -/
theorem C10_unchecked_guarantees_witness :
    (Parse.run_number_unchecked [1, 1, 0, 0, 0, 0, 0, 0] = none ∧
      Parse.initial_timestamp_unchecked [1, 1, 0, 0, 0, 0, 0, 0] = none) ∧
    Parse.run_number_unchecked [0, 128] = none ∧
    Parse.initial_timestamp_unchecked [0, 128, 255, 255, 255, 255, 255, 255] = none ∧
    (Parse.run_number_unchecked (Parse.file_bytes Endianness.little 1 2 [] [] 1 3 []) =
        some c10_file_view.run_number ∧
      Parse.initial_timestamp_unchecked
          (Parse.file_bytes Endianness.little 1 2 [] [] 1 3 []) =
        some c10_file_view.initial_timestamp) := by
  refine ⟨?_, ?_, ?_, ?_⟩
  · exact (C10_unchecked_guarantees [1, 1, 0, 0, 0, 0, 0, 0]).1 1 1 [0, 0, 0, 0, 0, 0]
      rfl (by decide) (by decide) (by decide) (by decide)
  · exact (C10_unchecked_guarantees [0, 128]).2.1 (by decide)
  · exact (C10_unchecked_guarantees [0, 128, 255, 255, 255, 255, 255, 255]).2.2.1 (by decide)
  · exact (C10_unchecked_guarantees (Parse.file_bytes Endianness.little 1 2 [] [] 1 3 [])).2.2.2
      c10_file_view (by decide)
